import Mathlib

/-!
Verification development for the breach-impact prediction system.

The frontend component BreachImpactPredictor (src/frontend/src/components/
dashboard/BreachImpactPredictor.tsx, with a prop-driven variant in
src/unnamed/part_002) computes a local fallback fine estimate
calculatePredictedFine over a list of similar cases.  JavaScript numbers
are modelled as exact rationals, and the NaN value produced by the 0/0
division on an empty list is modelled as Option.none; Math.round (round
half toward positive infinity) is modelled as jsRound.

The Python backend pipeline (breach_impact_workflow.py) is not part of the
repository sources; only its README (appended in src/unnamed/part_005)
survives.  Components of that pipeline are therefore modelled from the
specification text and marked as such in their doc comments.
-/

/-- One similar case as rendered by the frontend (interface SimilarCase in
BreachImpactPredictor.tsx): monetary fine and 0-100 similarity are
JavaScript numbers, modelled as rationals. -/
structure SimilarCase where
  id : String
  company : String
  descr : String
  fine : ℚ
  similarity : ℚ
  explanation_of_similarity : String
  date : String
  authority : String
deriving DecidableEq, Repr

/-- JavaScript Math.round on a finite number: round half toward positive
infinity. -/
def jsRound (q : ℚ) : ℤ := ⌊q + 1 / 2⌋

/-- The reduce accumulation inside calculatePredictedFine:
cases.reduce((acc, c) => acc + c.fine * (c.similarity / 100), 0). -/
def weightedReduce (cases : List SimilarCase) : ℚ :=
  cases.foldl (fun acc c => acc + c.fine * (c.similarity / 100)) 0

/-- calculatePredictedFine from BreachImpactPredictor.tsx: the reduce sum
divided by the array length, then Math.round.  On an empty list the
JavaScript code divides 0 by 0 and returns NaN, modelled here as none. -/
def calculatePredictedFine (cases : List SimilarCase) : Option ℤ :=
  if cases.length = 0 then none
  else some (jsRound (weightedReduce cases / cases.length))

/-- The render-time expression of the component:
predictedFine = predictedFineAmount || calculatePredictedFine().
JavaScript's || falls through on null and on 0 (both falsy). -/
def predictedFineAtRender (predictedFineAmount : Option ℤ)
    (cases : List SimilarCase) : Option ℤ :=
  match predictedFineAmount with
  | some v => if v = 0 then calculatePredictedFine cases else some v
  | none => calculatePredictedFine cases

/-- Transcribed from the spec for comparison with the code: the Fine
Aggregator formula predicted_fine = round( Σ(fine·similarity) /
Σ(similarity) ) over (fine, similarity) pairs. -/
def specWeightedFine (pairs : List (ℚ × ℚ)) : ℤ :=
  jsRound ((pairs.map fun p => p.1 * p.2).sum / (pairs.map fun p => p.2).sum)

/-- Transcribed from the spec for comparison with the code: the unweighted
arithmetic mean of the candidate fines. -/
def unweightedMeanFine (cases : List SimilarCase) : ℚ :=
  (cases.map SimilarCase.fine).sum / cases.length

/-- Helper to build concrete similar cases. -/
def mkCase (i : String) (f s : ℚ) : SimilarCase :=
  { id := i, company := "co", descr := "d", fine := f, similarity := s,
    explanation_of_similarity := "e", date := "2024-01-01", authority := "a" }

/-- The stub corpus of the spec scenario: fines [1000000, 500000, 10000000]
with similarities [90, 40, 70]. -/
def stubCases : List SimilarCase :=
  [mkCase "1" 1000000 90, mkCase "2" 500000 40, mkCase "3" 10000000 70]

/-- The list with all similarities set to zero, used to compare the code
against the spec's all-zero fallback clause. -/
def allZeroCases : List SimilarCase := [mkCase "1" 1000000 0]

/-- Two lists carrying the same multiset of (fine, similarity) pairs in a
different order and with different narrative text. -/
def permListA : List SimilarCase := [mkCase "1" 100 50, mkCase "2" 200 30]

/-- Reordering of permListA with different non-numeric fields. -/
def permListB : List SimilarCase :=
  [{ mkCase "2" 200 30 with explanation_of_similarity := "other text" },
   { mkCase "1" 100 50 with company := "another co" }]

/-- Modelled from the spec: the error taxonomy of the backend pipeline
(breach_impact_workflow.py is absent from the repository sources; only
README_workflow.md survives in src/unnamed/part_005). -/
inductive PipelineError where
  | InputValidationError
  | RetrievalError
  | NoPrecedentsFound
  | TimeoutError
deriving DecidableEq, Repr

/-- Modelled from the spec: HTTP status mapping of fatal pipeline errors. -/
def httpStatus : PipelineError → ℕ
  | PipelineError.InputValidationError => 400
  | PipelineError.RetrievalError => 502
  | PipelineError.NoPrecedentsFound => 404
  | PipelineError.TimeoutError => 504

/-- The request body of POST /predict-breach-impact: free-text description
plus four categorical classification fields, arriving as raw strings. -/
structure CaseInput where
  case_description : String
  lawfulness_of_processing : String
  data_subject_rights_compliance : String
  risk_management_and_safeguards : String
  accountability_and_governance : String
deriving DecidableEq, Repr

/-- Enumerated values of lawfulness_of_processing. -/
def lawfulnessValues : List String :=
  ["lawful_and_appropriate_basis", "lawful_but_principle_violation",
   "no_valid_basis", "exempt_or_restricted"]

/-- Enumerated values of data_subject_rights_compliance. -/
def rightsValues : List String :=
  ["full_compliance", "partial_compliance", "non_compliance", "not_triggered"]

/-- Enumerated values of risk_management_and_safeguards. -/
def safeguardsValues : List String :=
  ["proactive_safeguards", "reactive_only", "insufficient_protection",
   "not_applicable"]

/-- Enumerated values of accountability_and_governance. -/
def governanceValues : List String :=
  ["fully_accountable", "partially_accountable", "not_accountable",
   "not_required"]

/-- Modelled from the spec: input validation checks that every
classification field holds one of its enumerated values; it runs before
any external call (breach_impact_workflow.py is not in the sources). -/
def validateInput (i : CaseInput) : Bool :=
  decide (i.lawfulness_of_processing ∈ lawfulnessValues) &&
  decide (i.data_subject_rights_compliance ∈ rightsValues) &&
  decide (i.risk_management_and_safeguards ∈ safeguardsValues) &&
  decide (i.accountability_and_governance ∈ governanceValues)

/-- One ranked hit returned by the hybrid search over the precedent store;
several hits may point at the same precedent case (one case may have
multiple indexed chunks). -/
structure SearchHit where
  caseId : String
  score : ℚ
deriving DecidableEq, Repr

/-- A precedent enforcement case fetched from the store. -/
structure PrecedentCase where
  id : String
  company : String
  descr : String
  fine : ℚ
  date : String
  authority : String
  detail : String
deriving DecidableEq, Repr

/-- A per-candidate similarity assessment; fallback marks the
explicitly-flagged substitute produced when a worker call fails. -/
structure SimilarityAssessment where
  precedent_id : String
  similarity : ℤ
  explanation : String
  fallback : Bool
deriving DecidableEq, Repr

/-- The aggregated prediction: a fine estimate plus rationale text. -/
structure PredictionResult where
  predicted_fine : ℤ
  explanation : String
deriving DecidableEq, Repr

/-- The externally visible composite result of one successful request. -/
structure PipelineResult where
  similar_cases : List (PrecedentCase × SimilarityAssessment)
  prediction_result : PredictionResult
deriving DecidableEq, Repr

/-- Outcome of one reasoning-oracle call for one candidate. -/
inductive WorkerOutcome where
  | success (similarity : ℤ) (explanation : String)
  | timeout
  | oracleError (message : String)
deriving DecidableEq, Repr

/-- Modelled from the spec: the worker clamps the oracle score to the
integer interval [0, 100]. -/
def clampSimilarity (s : ℤ) : ℤ := max 0 (min 100 s)

/-- Modelled from the spec: the sentinel low-confidence similarity used by
the fallback assessment when a worker call times out or errors. -/
def fallbackSimilarity : ℤ := 10

/-- Explanation text of the fallback assessment. -/
def fallbackExplanation : String :=
  "similarity analysis could not be completed; low-confidence fallback score"

/-- Modelled from the spec: the fallback SimilarityAssessment substituted
for a failed worker call, never omitted from the join. -/
def fallbackAssessment (c : PrecedentCase) : SimilarityAssessment :=
  { precedent_id := c.id, similarity := fallbackSimilarity,
    explanation := fallbackExplanation, fallback := true }

/-- Modelled from the spec: one Similarity Analysis Worker; on oracle
success it clamps the score, on timeout or oracle error it yields the
fallback assessment (breach_impact_workflow.py is not in the sources). -/
def runWorker (oracle : PrecedentCase → WorkerOutcome) (c : PrecedentCase) :
    SimilarityAssessment :=
  match oracle c with
  | WorkerOutcome.success s e =>
    { precedent_id := c.id, similarity := clampSimilarity s,
      explanation := e, fallback := false }
  | WorkerOutcome.timeout => fallbackAssessment c
  | WorkerOutcome.oracleError _ => fallbackAssessment c

/-- Modelled from the spec: the Analysis Orchestrator's join — exactly one
assessment per surviving candidate, in candidate order; worker failures
are absorbed by per-candidate fallbacks and never dropped. -/
def joinAssessments (oracle : PrecedentCase → WorkerOutcome)
    (cands : List PrecedentCase) : List SimilarityAssessment :=
  cands.map (runWorker oracle)

/-- A worker call failed: the oracle timed out or errored on the
candidate. -/
def workerFailed (oracle : PrecedentCase → WorkerOutcome)
    (c : PrecedentCase) : Prop :=
  oracle c = WorkerOutcome.timeout ∨
    ∃ m, oracle c = WorkerOutcome.oracleError m

/-- Modelled from the spec: the Candidate Selector's scan — iterate the
ranked identities in order, skip identities already seen, stop when the
budget is exhausted (breach_impact_workflow.py is not in the sources). -/
def selectUnique (seen : List String) : ℕ → List String → List String
  | _, [] => []
  | 0, _ :: _ => []
  | Nat.succ k, x :: xs =>
    if x ∈ seen then selectUnique seen (Nat.succ k) xs
    else x :: selectUnique (x :: seen) k xs

/-- First occurrence of each distinct identity, in ranked order: the
characterization against which the selector is checked. -/
def firstDistinct (seen : List String) : List String → List String
  | [] => []
  | x :: xs =>
    if x ∈ seen then firstDistinct seen xs
    else x :: firstDistinct (x :: seen) xs

/-- Modelled from the spec: the Candidate Selector keeps at most 5 unique
case identities from the ranked list and fails with NoPrecedentsFound when
none remain. -/
def selectCandidates (hits : List SearchHit) :
    Except PipelineError (List String) :=
  let sel := selectUnique [] 5 (hits.map SearchHit.caseId)
  if sel = [] then Except.error PipelineError.NoPrecedentsFound
  else Except.ok sel

/-- Modelled from the spec: the search query is the case description
enriched with the four classification labels. -/
def buildQuery (i : CaseInput) : String :=
  i.case_description ++ " " ++ i.lawfulness_of_processing ++ " " ++
    i.data_subject_rights_compliance ++ " " ++
    i.risk_management_and_safeguards ++ " " ++
    i.accountability_and_governance

/-- Sort key of the final similar-cases ordering: similarity descending,
then fine descending, then candidate id ascending (lexicographic on
negated similarity, negated fine, id). -/
def sortKey (p : PrecedentCase × SimilarityAssessment) :
    ℤ ×ₗ (ℚ ×ₗ String) :=
  toLex (-(p.2.similarity), toLex (-(p.1.fine), p.1.id))

/-- The ordering relation of the final similar-cases list. -/
def caseLE (a b : PrecedentCase × SimilarityAssessment) : Prop :=
  sortKey a ≤ sortKey b

instance : DecidableRel caseLE := fun a b =>
  inferInstanceAs (Decidable (sortKey a ≤ sortKey b))

instance : IsTotal (PrecedentCase × SimilarityAssessment) caseLE :=
  ⟨fun a b => le_total (sortKey a) (sortKey b)⟩

instance : IsTrans (PrecedentCase × SimilarityAssessment) caseLE :=
  ⟨fun _ _ _ h1 h2 => le_trans h1 h2⟩

/-- Modelled from the spec: the final similar-cases list is sorted by
similarity descending, ties by fine descending then id ascending. -/
def sortCases (pairs : List (PrecedentCase × SimilarityAssessment)) :
    List (PrecedentCase × SimilarityAssessment) :=
  List.insertionSort caseLE pairs

/-- Explanation text flagging the all-similarities-zero fallback. -/
def lowConfidenceExplanation : String :=
  "low confidence: no meaningful similarity match; unweighted mean of candidate fines"

/-- Explanation text of the ordinary weighted estimate. -/
def weightedExplanation : String :=
  "similarity-weighted estimate over retained precedent cases"

/-- Modelled from the spec: the Fine Aggregator — discard zero-similarity
entries unless that empties the set; weighted estimate
round(sum(fine * similarity) / sum(similarity)) over the retained set;
if all similarities are zero, fall back to the unweighted mean of the
candidate fines with a low-confidence flag in the explanation
(breach_impact_workflow.py is not in the sources). -/
def specAggregate (pairs : List (PrecedentCase × SimilarityAssessment)) :
    PredictionResult :=
  let retained := pairs.filter fun p => p.2.similarity ≠ 0
  if retained.isEmpty then
    { predicted_fine :=
        jsRound ((pairs.map fun p => p.1.fine).sum / pairs.length),
      explanation := lowConfidenceExplanation }
  else
    { predicted_fine :=
        jsRound ((retained.map fun p => p.1.fine * (p.2.similarity : ℚ)).sum /
          (retained.map fun p => ((p.2.similarity : ℤ) : ℚ)).sum),
      explanation := weightedExplanation }

/-- Modelled from the spec: the Pipeline Controller — validate, search the
precedent store, select candidates, fetch details (dropping candidates the
fetcher cannot resolve), fan out one worker per candidate, sort, and
aggregate.  The second component counts retrieval (store) calls, mirroring
the call-count assertion the spec asks for
(breach_impact_workflow.py is not in the sources). -/
def runPipeline (store : String → List SearchHit)
    (fetch : String → Option PrecedentCase)
    (oracle : PrecedentCase → WorkerOutcome) (input : CaseInput) :
    Except PipelineError PipelineResult × ℕ :=
  if validateInput input then
    let hits := (store (buildQuery input)).take 50
    let sel := selectUnique [] 5 (hits.map SearchHit.caseId)
    if sel = [] then (Except.error PipelineError.NoPrecedentsFound, 1)
    else
      let cands := sel.filterMap fetch
      if cands = [] then (Except.error PipelineError.NoPrecedentsFound, 1)
      else
        let pairs := cands.map fun c => (c, runWorker oracle c)
        let sorted := sortCases pairs
        (Except.ok { similar_cases := sorted,
                     prediction_result := specAggregate sorted }, 1)
  else (Except.error PipelineError.InputValidationError, 0)

/-- A valid demonstration request. -/
def demoInput : CaseInput :=
  { case_description := "healthcare breach affecting 50000 patients",
    lawfulness_of_processing := "no_valid_basis",
    data_subject_rights_compliance := "non_compliance",
    risk_management_and_safeguards := "insufficient_protection",
    accountability_and_governance := "not_accountable" }

/-- A request whose risk_management_and_safeguards value is outside the
enumerated set. -/
def demoBadInput : CaseInput :=
  { demoInput with risk_management_and_safeguards := "banana" }

/-- Helper to build concrete precedent cases. -/
def demoCase (i : String) (f : ℚ) : PrecedentCase :=
  { id := i, company := "co", descr := "d", fine := f, date := "2024-01-01",
    authority := "dpa", detail := "t" }

/-- A demonstration store: two ranked hits pointing at the same case (one
case indexed in two chunks). -/
def demoStore : String → List SearchHit := fun _ =>
  [{ caseId := "c1", score := 9 / 10 }, { caseId := "c1", score := 7 / 10 }]

/-- A demonstration fetcher resolving the demo case. -/
def demoFetch : String → Option PrecedentCase := fun s =>
  if s = "c1" then some (demoCase "c1" 450) else none

/-- A demonstration oracle that always succeeds with score 80. -/
def demoOracle : PrecedentCase → WorkerOutcome := fun _ =>
  WorkerOutcome.success 80 "close match"

/-- An oracle that succeeds on c1 and times out on every other case. -/
def failOracle : PrecedentCase → WorkerOutcome := fun c =>
  if c.id = "c1" then WorkerOutcome.success 80 "close match"
  else WorkerOutcome.timeout

/-- A candidate shortlist for the orchestrator demonstration. -/
def demoCands : List PrecedentCase := [demoCase "c1" 450, demoCase "c2" 900]

/-- The result of the demonstration pipeline run: the single candidate c1
scores 80, and round(450 * 80 / 80) = 450. -/
def demoResult : PipelineResult :=
  { similar_cases :=
      [(demoCase "c1" 450,
        { precedent_id := "c1", similarity := 80,
          explanation := "close match", fallback := false })],
    prediction_result :=
      { predicted_fine := 450, explanation := weightedExplanation } }

/-- A concrete joined (case, assessment) list for the aggregator. -/
def demoPairs : List (PrecedentCase × SimilarityAssessment) :=
  [(demoCase "c1" 450,
    { precedent_id := "c1", similarity := 80,
      explanation := "close match", fallback := false })]

theorem weightedReduce_go (l : List SimilarCase) (a : ℚ) :
    l.foldl (fun acc c => acc + c.fine * (c.similarity / 100)) a =
      a + (l.map fun c => c.fine * (c.similarity / 100)).sum := by
  induction l generalizing a with
  | nil => simp
  | cons c l ih => simp [ih, add_assoc]

theorem weightedReduce_eq_sum (cases : List SimilarCase) :
    weightedReduce cases =
      (cases.map fun c => c.fine * (c.similarity / 100)).sum := by
  simpa using weightedReduce_go cases 0

theorem calcFine_sum_form (cases : List SimilarCase) (h : cases ≠ []) :
    calculatePredictedFine cases =
      some (jsRound
        ((cases.map fun c => c.fine * (c.similarity / 100)).sum /
          cases.length)) := by
  have hlen : cases.length ≠ 0 := fun hl => h (List.length_eq_zero.1 hl)
  simp [calculatePredictedFine, weightedReduce_eq_sum, hlen]

theorem jsRound_nonneg {q : ℚ} (hq : 0 ≤ q) : 0 ≤ jsRound q := by
  have : ((0 : ℤ) : ℚ) ≤ q + 1 / 2 := by push_cast; linarith
  exact Int.le_floor.2 this

theorem selectUnique_eq_take (l : List String) (seen : List String) (k : ℕ) :
    selectUnique seen k l = (firstDistinct seen l).take k := by
  induction l generalizing seen k with
  | nil => cases k <;> simp [selectUnique, firstDistinct]
  | cons x xs ih =>
    cases k with
    | zero => simp [selectUnique]
    | succ k =>
      by_cases hx : x ∈ seen
      · simp [selectUnique, firstDistinct, hx, ih]
      · simp [selectUnique, firstDistinct, hx, ih, List.take_succ_cons]

theorem firstDistinct_sublist (l : List String) (seen : List String) :
    (firstDistinct seen l).Sublist l := by
  induction l generalizing seen with
  | nil => simp [firstDistinct]
  | cons x xs ih =>
    by_cases hx : x ∈ seen
    · simpa [firstDistinct, hx] using (ih seen).cons x
    · simpa [firstDistinct, hx] using (ih (x :: seen)).cons₂ x

theorem firstDistinct_nodup_notMem (l : List String) (seen : List String) :
    (firstDistinct seen l).Nodup ∧ ∀ x ∈ firstDistinct seen l, x ∉ seen := by
  induction l generalizing seen with
  | nil => simp [firstDistinct]
  | cons x xs ih =>
    by_cases hx : x ∈ seen
    · simpa [firstDistinct, hx] using ih seen
    · obtain ⟨hnd, hmem⟩ := ih (x :: seen)
      refine ⟨?_, ?_⟩
      · rw [firstDistinct, if_neg hx, List.nodup_cons]
        exact ⟨fun hin => hmem x hin (List.mem_cons_self x seen), hnd⟩
      · intro y hy
        rw [firstDistinct, if_neg hx] at hy
        rcases List.mem_cons.1 hy with rfl | hy'
        · exact hx
        · exact fun hs => hmem y hy' (List.mem_cons_of_mem x hs)

theorem firstDistinct_nil_iff (l : List String) :
    firstDistinct [] l = [] ↔ l = [] := by
  cases l with
  | nil => simp [firstDistinct]
  | cons x xs => simp [firstDistinct]

theorem caseLE_iff (a b : PrecedentCase × SimilarityAssessment) :
    caseLE a b ↔
      b.2.similarity < a.2.similarity ∨
        (a.2.similarity = b.2.similarity ∧
          (b.1.fine < a.1.fine ∨
            (a.1.fine = b.1.fine ∧ a.1.id ≤ b.1.id))) := by
  unfold caseLE sortKey
  rw [Prod.Lex.le_iff]
  constructor
  · rintro (h | ⟨h1, h2⟩)
    · exact Or.inl (by simpa using h)
    · rw [Prod.Lex.le_iff] at h2
      refine Or.inr ⟨by simpa using h1, ?_⟩
      rcases h2 with h | ⟨h3, h4⟩
      · exact Or.inl (by simpa using h)
      · exact Or.inr ⟨by simpa using h3, by simpa using h4⟩
  · rintro (h | ⟨h1, h | ⟨h3, h4⟩⟩)
    · exact Or.inl (by simpa using h)
    · exact Or.inr ⟨by simpa using h1, Prod.Lex.le_iff _ _ |>.2
        (Or.inl (by simpa using h))⟩
    · exact Or.inr ⟨by simpa using h1, Prod.Lex.le_iff _ _ |>.2
        (Or.inr ⟨by simpa using h3, by simpa using h4⟩)⟩

theorem runPipeline_ok_inv {store : String → List SearchHit}
    {fetch : String → Option PrecedentCase}
    {oracle : PrecedentCase → WorkerOutcome} {input : CaseInput}
    {res : PipelineResult} {n : ℕ}
    (h : runPipeline store fetch oracle input = (Except.ok res, n)) :
    ∃ cands : List PrecedentCase, cands ≠ [] ∧ cands.length ≤ 5 ∧
      res.similar_cases =
        sortCases (cands.map fun c => (c, runWorker oracle c)) ∧
      res.prediction_result = specAggregate res.similar_cases := by
  unfold runPipeline at h
  split at h
  · set sel := selectUnique [] 5
      (((store (buildQuery input)).take 50).map SearchHit.caseId) with hsel
    by_cases h1 : sel = []
    · rw [if_pos h1] at h
      rw [Prod.mk.injEq] at h
      exact absurd h.1 (by simp)
    · rw [if_neg h1] at h
      by_cases h2 : sel.filterMap fetch = []
      · rw [if_pos h2] at h
        rw [Prod.mk.injEq] at h
        exact absurd h.1 (by simp)
      · rw [if_neg h2] at h
        simp only [Prod.mk.injEq] at h
        refine ⟨sel.filterMap fetch, h2, ?_, ?_, ?_⟩
        · calc (sel.filterMap fetch).length ≤ sel.length :=
            List.length_filterMap_le fetch sel
          _ ≤ 5 := by
            rw [hsel, selectUnique_eq_take, List.length_take]
            exact min_le_left 5 _
        · injection h.1 with hres
          rw [← hres]
        · injection h.1 with hres
          rw [← hres]
  · rw [Prod.mk.injEq] at h
    exact absurd h.1 (by simp)

theorem demoRun :
    runPipeline demoStore demoFetch demoOracle demoInput =
      (Except.ok demoResult, 1) := by
  simp only [runPipeline, validateInput, demoInput, demoStore, demoFetch,
    demoOracle, selectUnique, sortCases, specAggregate, demoResult, demoCase,
    buildQuery, runWorker, clampSimilarity, List.insertionSort,
    List.orderedInsert, lawfulnessValues, rightsValues, safeguardsValues,
    governanceValues, List.take, List.map, List.filterMap, List.filter,
    List.isEmpty]
  norm_num [jsRound, weightedExplanation]

/-- C1 (counterexample): on the spec scenario — fines
[1000000, 500000, 10000000] with similarities [90, 40, 70] — the code's
calculatePredictedFine yields 2700000, not the claimed 3710000; even the
spec's own normalized formula round(sum(fine * sim) / sum(sim)) yields
4050000 on this input, so the claimed value matches neither. -/
theorem calculatePredictedFine_scenario_counterexample :
    calculatePredictedFine stubCases = some 2700000 ∧
      specWeightedFine (stubCases.map fun c => (c.fine, c.similarity)) =
        4050000 ∧
      calculatePredictedFine stubCases ≠ some 3710000 := by
  refine ⟨?_, ?_, ?_⟩ <;>
    norm_num [calculatePredictedFine, weightedReduce, specWeightedFine,
      stubCases, mkCase, jsRound]

/-- C1 (amended): for every non-empty retained list the code's predicted
fine equals round( Σ(fine_i · similarity_i / 100) / n ) — the mean of
similarity-scaled fines, dividing by the case count, not by the similarity
sum — and on fines [1000000, 500000, 10000000] with similarities
[90, 40, 70] the predicted fine is 2700000. -/
theorem calculatePredictedFine_average_formula :
    (∀ cases : List SimilarCase, cases ≠ [] →
        calculatePredictedFine cases =
          some (jsRound
            ((cases.map fun c => c.fine * (c.similarity / 100)).sum /
              cases.length))) ∧
      calculatePredictedFine stubCases = some 2700000 := by
  refine ⟨calcFine_sum_form, ?_⟩
  norm_num [calculatePredictedFine, weightedReduce, stubCases, mkCase, jsRound]

/-- Witness for C1 at the stub corpus. -/
theorem calculatePredictedFine_average_formula_witness :
    stubCases ≠ [] ∧
      calculatePredictedFine stubCases =
        some (jsRound
          ((stubCases.map fun c => c.fine * (c.similarity / 100)).sum /
            stubCases.length)) :=
  ⟨by simp [stubCases],
   calculatePredictedFine_average_formula.1 stubCases (by simp [stubCases])⟩

/-- C2 (counterexample): with a single retained case of fine 1000000 and
similarity 0, the code returns 0, not the unweighted mean 1000000 that the
claim requires, and no low-confidence flag exists in the code. -/
theorem calculatePredictedFine_allZero_counterexample :
    calculatePredictedFine allZeroCases = some 0 ∧
      jsRound (unweightedMeanFine allZeroCases) = 1000000 ∧
      calculatePredictedFine allZeroCases ≠
        some (jsRound (unweightedMeanFine allZeroCases)) := by
  refine ⟨?_, ?_, ?_⟩ <;>
    norm_num [calculatePredictedFine, weightedReduce, unweightedMeanFine,
      allZeroCases, mkCase, jsRound]

/-- C2 (amended): when every similarity is 0 and at least one case exists,
the computation does not fail — it returns the value 0 (every term
fine·0/100 vanishes), rather than the unweighted mean of the fines. -/
theorem calculatePredictedFine_allZero_returns_zero
    (cases : List SimilarCase) (h1 : cases ≠ [])
    (h2 : ∀ c ∈ cases, c.similarity = 0) :
    calculatePredictedFine cases = some 0 := by
  rw [calcFine_sum_form cases h1]
  have hz : (cases.map fun c => c.fine * (c.similarity / 100)).sum = 0 := by
    apply List.sum_eq_zero
    intro x hx
    obtain ⟨c, hc, rfl⟩ := List.mem_map.1 hx
    rw [h2 c hc]
    ring
  rw [hz]
  norm_num [jsRound]

/-- Witness for C2 at the all-zero-similarity list. -/
theorem calculatePredictedFine_allZero_returns_zero_witness :
    allZeroCases ≠ [] ∧ (∀ c ∈ allZeroCases, c.similarity = 0) ∧
      calculatePredictedFine allZeroCases = some 0 :=
  ⟨by simp [allZeroCases], by simp [allZeroCases, mkCase],
   calculatePredictedFine_allZero_returns_zero allZeroCases
     (by simp [allZeroCases]) (by simp [allZeroCases, mkCase])⟩

/-- C5: the numeric output of calculatePredictedFine depends only on the
multiset of (fine, similarity) pairs — it is invariant under reordering
and under changes to any narrative text field, hence reproducible across
repeated calls. -/
theorem calculatePredictedFine_multiset_deterministic
    (l l' : List SimilarCase)
    (h : (l.map fun c => (c.fine, c.similarity)).Perm
      (l'.map fun c => (c.fine, c.similarity))) :
    calculatePredictedFine l = calculatePredictedFine l' := by
  have hlen : l.length = l'.length := by
    have := h.length_eq
    simpa using this
  have hsum : (l.map fun c => c.fine * (c.similarity / 100)).sum =
      (l'.map fun c => c.fine * (c.similarity / 100)).sum := by
    have h2 := (h.map fun p : ℚ × ℚ => p.1 * (p.2 / 100)).sum_eq
    simpa [List.map_map, Function.comp] using h2
  simp [calculatePredictedFine, weightedReduce_eq_sum, hlen, hsum]

/-- Witness for C5: two reorderings with different narrative text. -/
theorem calculatePredictedFine_multiset_deterministic_witness :
    (permListA.map fun c => (c.fine, c.similarity)).Perm
        (permListB.map fun c => (c.fine, c.similarity)) ∧
      calculatePredictedFine permListA = calculatePredictedFine permListB := by
  have hp : (permListA.map fun c => (c.fine, c.similarity)).Perm
      (permListB.map fun c => (c.fine, c.similarity)) := by
    simp only [permListA, permListB, mkCase, List.map_cons, List.map_nil]
    exact List.Perm.swap _ _ _
  exact ⟨hp,
    calculatePredictedFine_multiset_deterministic permListA permListB hp⟩

/-- C10: applied to the empty list the frontend computation divides 0 by 0
and produces NaN (modelled as none) rather than a non-negative integer,
and the component's render-time expression with no backend amount set
reaches that unguarded division. -/
theorem calculatePredictedFine_empty_yields_nan :
    calculatePredictedFine [] = none ∧
      predictedFineAtRender none [] = none := by
  constructor <;> simp [calculatePredictedFine, predictedFineAtRender]

/-- C3: the orchestrator join is count-preserving — one assessment per
candidate, positionally keyed by the candidate's id — and a candidate
whose worker call times out or errors receives the explicitly-flagged
fallback assessment with the sentinel low similarity and the
could-not-complete explanation; the join itself never fails. -/
theorem orchestrator_join_count_preserving
    (oracle : PrecedentCase → WorkerOutcome) (cands : List PrecedentCase)
    (h1 : 1 ≤ cands.length) (h5 : cands.length ≤ 5) :
    (joinAssessments oracle cands).length = cands.length ∧
      (joinAssessments oracle cands).map SimilarityAssessment.precedent_id =
        cands.map PrecedentCase.id ∧
      ∀ c ∈ cands, workerFailed oracle c →
        fallbackAssessment c ∈ joinAssessments oracle cands ∧
          (fallbackAssessment c).fallback = true ∧
          (fallbackAssessment c).similarity = fallbackSimilarity ∧
          (fallbackAssessment c).explanation = fallbackExplanation := by
  refine ⟨by simp [joinAssessments], ?_, ?_⟩
  · rw [joinAssessments, List.map_map]
    apply List.map_congr_left
    intro c _
    cases hoc : oracle c <;>
      simp [runWorker, hoc, fallbackAssessment, Function.comp]
  · intro c hc hf
    have hrw : runWorker oracle c = fallbackAssessment c := by
      rcases hf with h | ⟨m, h⟩ <;> simp [runWorker, h]
    exact ⟨hrw ▸ List.mem_map_of_mem (runWorker oracle) hc, rfl, rfl, rfl⟩

/-- Witness for C3: two candidates, the worker for c2 times out. -/
theorem orchestrator_join_count_preserving_witness :
    (joinAssessments failOracle demoCands).length = demoCands.length ∧
      (joinAssessments failOracle demoCands).map
          SimilarityAssessment.precedent_id = demoCands.map PrecedentCase.id ∧
      ∀ c ∈ demoCands, workerFailed failOracle c →
        fallbackAssessment c ∈ joinAssessments failOracle demoCands ∧
          (fallbackAssessment c).fallback = true ∧
          (fallbackAssessment c).similarity = fallbackSimilarity ∧
          (fallbackAssessment c).explanation = fallbackExplanation :=
  orchestrator_join_count_preserving failOracle demoCands
    (by norm_num [demoCands]) (by norm_num [demoCands])

/-- C4: the candidate selector keeps the first occurrence of each distinct
case identity in ranked order, truncated to 5 — the result is exactly
take 5 of the first-occurrence dedupe, a duplicate-free, order-preserving
sublist of the ranked identities — and it fails with NoPrecedentsFound
exactly when the ranked list is empty. -/
theorem candidateSelector_dedupe_truncate (hits : List SearchHit) :
    (selectCandidates hits = Except.error PipelineError.NoPrecedentsFound ↔
        hits = []) ∧
      (hits ≠ [] → ∃ sel, selectCandidates hits = Except.ok sel ∧
        sel = (firstDistinct [] (hits.map SearchHit.caseId)).take 5 ∧
        sel.Nodup ∧ sel.Sublist (hits.map SearchHit.caseId) ∧
        sel.length ≤ 5 ∧ sel ≠ []) := by
  have hsel : selectUnique [] 5 (hits.map SearchHit.caseId) =
      (firstDistinct [] (hits.map SearchHit.caseId)).take 5 :=
    selectUnique_eq_take _ [] 5
  have hiff : selectUnique [] 5 (hits.map SearchHit.caseId) = [] ↔
      hits = [] := by
    rw [hsel, List.take_eq_nil_iff]
    simp [firstDistinct_nil_iff]
  refine ⟨⟨fun he => ?_, fun he => ?_⟩, fun hne => ?_⟩
  · by_cases h0 : selectUnique [] 5 (hits.map SearchHit.caseId) = []
    · exact hiff.1 h0
    · unfold selectCandidates at he
      rw [if_neg h0] at he
      exact Except.noConfusion he
  · subst he
    simp [selectCandidates, selectUnique]
  · have h0 : selectUnique [] 5 (hits.map SearchHit.caseId) ≠ [] :=
      fun h => hne (hiff.1 h)
    refine ⟨selectUnique [] 5 (hits.map SearchHit.caseId), ?_, hsel, ?_, ?_,
      ?_, h0⟩
    · unfold selectCandidates
      rw [if_neg h0]
    · rw [hsel]
      exact List.Nodup.sublist (List.take_sublist _ _)
        (firstDistinct_nodup_notMem _ []).1
    · rw [hsel]
      exact (List.take_sublist _ _).trans (firstDistinct_sublist _ [])
    · rw [hsel, List.length_take]
      exact min_le_left _ _

/-- Witness for C4: two ranked hits over one distinct case identity. -/
theorem candidateSelector_dedupe_truncate_witness :
    ∃ sel, selectCandidates (demoStore "q") = Except.ok sel ∧
      sel = (firstDistinct [] ((demoStore "q").map SearchHit.caseId)).take 5 ∧
      sel.Nodup ∧ sel.Sublist ((demoStore "q").map SearchHit.caseId) ∧
      sel.length ≤ 5 ∧ sel ≠ [] :=
  (candidateSelector_dedupe_truncate (demoStore "q")).2 (by simp [demoStore])

/-- C6: every successful pipeline request returns at most 5 similar cases
and every returned similarity lies in the integer interval [0, 100]. -/
theorem pipeline_similar_cases_bounds
    (store : String → List SearchHit) (fetch : String → Option PrecedentCase)
    (oracle : PrecedentCase → WorkerOutcome) (input : CaseInput)
    (res : PipelineResult) (n : ℕ)
    (h : runPipeline store fetch oracle input = (Except.ok res, n)) :
    res.similar_cases.length ≤ 5 ∧
      ∀ p ∈ res.similar_cases,
        0 ≤ p.2.similarity ∧ p.2.similarity ≤ 100 := by
  obtain ⟨cands, hne, hlen, hsc, _⟩ := runPipeline_ok_inv h
  constructor
  · rw [hsc, sortCases]
    have hp := (List.perm_insertionSort caseLE
      (cands.map fun c => (c, runWorker oracle c))).length_eq
    rw [hp, List.length_map]
    exact hlen
  · intro p hp
    rw [hsc, sortCases] at hp
    have hp' := (List.perm_insertionSort caseLE
      (cands.map fun c => (c, runWorker oracle c))).mem_iff.1 hp
    obtain ⟨c, _, rfl⟩ := List.mem_map.1 hp'
    cases hoc : oracle c <;>
      simp [runWorker, hoc, fallbackAssessment, fallbackSimilarity,
        clampSimilarity]

/-- Witness for C6 at the demonstration run. -/
theorem pipeline_similar_cases_bounds_witness :
    demoResult.similar_cases.length ≤ 5 ∧
      ∀ p ∈ demoResult.similar_cases,
        0 ≤ p.2.similarity ∧ p.2.similarity ≤ 100 :=
  pipeline_similar_cases_bounds demoStore demoFetch demoOracle demoInput
    demoResult 1 demoRun

/-- C7: every successful pipeline request returns its similar-cases list
sorted by similarity descending, ties broken by fine descending and then
by candidate id ascending. -/
theorem pipeline_similar_cases_sorted
    (store : String → List SearchHit) (fetch : String → Option PrecedentCase)
    (oracle : PrecedentCase → WorkerOutcome) (input : CaseInput)
    (res : PipelineResult) (n : ℕ)
    (h : runPipeline store fetch oracle input = (Except.ok res, n)) :
    res.similar_cases.Pairwise (fun a b =>
      b.2.similarity < a.2.similarity ∨
        (a.2.similarity = b.2.similarity ∧
          (b.1.fine < a.1.fine ∨
            (a.1.fine = b.1.fine ∧ a.1.id ≤ b.1.id)))) := by
  obtain ⟨cands, _, _, hsc, _⟩ := runPipeline_ok_inv h
  rw [hsc, sortCases]
  have hs := List.sorted_insertionSort caseLE
    (cands.map fun c => (c, runWorker oracle c))
  exact List.Pairwise.imp (fun hab => (caseLE_iff _ _).1 hab) hs

/-- Witness for C7 at the demonstration run. -/
theorem pipeline_similar_cases_sorted_witness :
    demoResult.similar_cases.Pairwise (fun a b =>
      b.2.similarity < a.2.similarity ∨
        (a.2.similarity = b.2.similarity ∧
          (b.1.fine < a.1.fine ∨
            (a.1.fine = b.1.fine ∧ a.1.id ≤ b.1.id)))) :=
  pipeline_similar_cases_sorted demoStore demoFetch demoOracle demoInput
    demoResult 1 demoRun

/-- C8: a request in which any classification field holds a value outside
its enumerated set is rejected with InputValidationError (mapped to HTTP
400) and zero retrieval calls are issued. -/
theorem pipeline_rejects_invalid_enum
    (store : String → List SearchHit) (fetch : String → Option PrecedentCase)
    (oracle : PrecedentCase → WorkerOutcome) (input : CaseInput)
    (h : input.lawfulness_of_processing ∉ lawfulnessValues ∨
      input.data_subject_rights_compliance ∉ rightsValues ∨
      input.risk_management_and_safeguards ∉ safeguardsValues ∨
      input.accountability_and_governance ∉ governanceValues) :
    runPipeline store fetch oracle input =
        (Except.error PipelineError.InputValidationError, 0) ∧
      httpStatus PipelineError.InputValidationError = 400 := by
  have hv : validateInput input = false := by
    rcases h with h | h | h | h <;> simp [validateInput, h]
  exact ⟨by simp [runPipeline, hv], rfl⟩

/-- Witness for C8: an out-of-range risk_management_and_safeguards value. -/
theorem pipeline_rejects_invalid_enum_witness :
    runPipeline demoStore demoFetch demoOracle demoBadInput =
        (Except.error PipelineError.InputValidationError, 0) ∧
      httpStatus PipelineError.InputValidationError = 400 :=
  pipeline_rejects_invalid_enum demoStore demoFetch demoOracle demoBadInput
    (Or.inr (Or.inr (Or.inl (by decide))))

/-- C9: with non-negative integer fines and similarities in [0, 100], the
frontend computation returns a non-negative integer on every non-empty
list, and the backend aggregator's predicted fine is non-negative for
every joined list with non-negative fines and similarities. -/
theorem predicted_fine_nonneg
    (cases : List SimilarCase)
    (pairs : List (PrecedentCase × SimilarityAssessment))
    (h1 : cases ≠ [])
    (h2 : ∀ c ∈ cases, (∃ m : ℕ, c.fine = (m : ℚ)) ∧
      0 ≤ c.similarity ∧ c.similarity ≤ 100)
    (h3 : ∀ p ∈ pairs, 0 ≤ p.1.fine ∧ 0 ≤ p.2.similarity) :
    (∃ k : ℤ, calculatePredictedFine cases = some k ∧ 0 ≤ k) ∧
      0 ≤ (specAggregate pairs).predicted_fine := by
  constructor
  · refine ⟨_, calcFine_sum_form cases h1, ?_⟩
    apply jsRound_nonneg
    apply div_nonneg
    · apply List.sum_nonneg
      intro x hx
      obtain ⟨c, hc, rfl⟩ := List.mem_map.1 hx
      obtain ⟨⟨m, hm⟩, hs0, _⟩ := h2 c hc
      have hf : (0 : ℚ) ≤ c.fine := by
        rw [hm]
        positivity
      exact mul_nonneg hf (div_nonneg hs0 (by norm_num))
    · positivity
  · have hfilter : ∀ p ∈ pairs.filter (fun p => p.2.similarity ≠ 0),
        p ∈ pairs := fun p hp => (List.mem_filter.1 hp).1
    simp only [specAggregate]
    split
    · apply jsRound_nonneg
      apply div_nonneg
      · apply List.sum_nonneg
        intro x hx
        obtain ⟨p, hp, rfl⟩ := List.mem_map.1 hx
        exact (h3 p hp).1
      · positivity
    · apply jsRound_nonneg
      apply div_nonneg
      · apply List.sum_nonneg
        intro x hx
        obtain ⟨p, hp, rfl⟩ := List.mem_map.1 hx
        obtain ⟨hf, hs⟩ := h3 p (hfilter p hp)
        exact mul_nonneg hf (by exact_mod_cast hs)
      · apply List.sum_nonneg
        intro x hx
        obtain ⟨p, hp, rfl⟩ := List.mem_map.1 hx
        exact_mod_cast (h3 p (hfilter p hp)).2

/-- Witness for C9 at the stub corpus and the demonstration pairs. -/
theorem predicted_fine_nonneg_witness :
    (∃ k : ℤ, calculatePredictedFine stubCases = some k ∧ 0 ≤ k) ∧
      0 ≤ (specAggregate demoPairs).predicted_fine :=
  predicted_fine_nonneg stubCases demoPairs (by simp [stubCases])
    (by
      intro c hc
      simp only [stubCases, mkCase, List.mem_cons,
        List.not_mem_nil, or_false] at hc
      rcases hc with rfl | rfl | rfl
      · exact ⟨⟨1000000, by norm_num⟩, by norm_num, by norm_num⟩
      · exact ⟨⟨500000, by norm_num⟩, by norm_num, by norm_num⟩
      · exact ⟨⟨10000000, by norm_num⟩, by norm_num, by norm_num⟩)
    (by
      intro p hp
      simp only [demoPairs, demoCase, List.mem_cons,
        List.not_mem_nil, or_false] at hp
      rw [hp]
      exact ⟨by norm_num, by norm_num⟩)
